import Mathlib

/-!
# Verification of `plot_us_states_map.py` (kalyanidhusia/geomap)

A shallow embedding of the two components of the program:

* `get_us_shapefile` — the Geometry Provider: ensures the cache directory
  exists (downloading + extracting on first use) and locates a `.shp` file
  by walking the directory tree (`os.walk`).
* `plot_us_map` — the Map Renderer: reads the tab-separated input table,
  validates the `"State"` column, merges the shapefile records with the
  input rows (pandas left merge on `NAME` = `State`), normalizes the metric
  column over a five-stop gradient colormap, and assigns each merged record
  a color and a centroid label.

Machine floats are modelled as rationals (`ℚ`); the pandas missing value
(`NaN`) is an explicit `Cell.nan` constructor; fallible steps return
`Except`.  Filesystem and network effects are explicit state
(`FS`) / event lists (`Ev`).
-/

namespace Geomap

/-! ## Geometry Provider (`get_us_shapefile`, lines 28–49) -/

/-- One entry of the `os.walk` traversal: a directory path together with the
plain files it contains (in listing order).  The walk itself is the list of
entries in `os.walk` visiting order. -/
structure WalkEntry where
  root : String
  files : List String
  deriving DecidableEq, Repr

/-- `file.endswith(".shp")` (line 44), computed on the character list of
the file name. -/
def isShp (f : String) : Bool := ".shp".data.isSuffixOf f.data

/-- `os.path.join(root, file)` (line 45), for POSIX paths. -/
def pathJoin (a b : String) : String := a ++ "/" ++ b

/-- Body of the inner `for file in files` loop (lines 43–46): the first
`.shp` file of this directory, if any, joined with the directory path. -/
def dirShp (e : WalkEntry) : Option String :=
  (e.files.find? isShp).map (pathJoin e.root)

/-- One iteration of the outer `for root, dirs, files in os.walk(...)` loop
(lines 42–46): `shp_path` is overwritten when this directory contains a
`.shp` file (the inner `break` only exits the inner loop), otherwise the
previous value is kept. -/
def findShpStep (acc : Option String) (e : WalkEntry) : Option String :=
  match dirShp e with
  | some p => some p
  | none => acc

/-- The final value of `shp_path` after the whole walk (lines 41–46). -/
def locateShp (walk : List WalkEntry) : Option String :=
  walk.foldl findShpStep none

/-- The first `.shp` file of the *last* directory (in walk order) that
contains one.  This is what the loop of lines 42–46 actually computes; the
spec instead promises the first file encountered in the whole search. -/
def lastDirShp : List WalkEntry → Option String
  | [] => none
  | e :: rest =>
    match lastDirShp rest with
    | some p => some p
    | none => dirShp e

/-- The first `.shp` file encountered in the directory-tree search, reading
the walk front to back — the result the spec describes. -/
def firstShp : List WalkEntry → Option String
  | [] => none
  | e :: rest =>
    match dirShp e with
    | some p => some p
    | none => firstShp rest

/-- Filesystem state relevant to `get_us_shapefile`: whether the cache
directory `~/.us_state_geo` exists, and the directory tree under it (as an
`os.walk` listing). -/
structure FS where
  cacheExists : Bool
  tree : List WalkEntry
  deriving DecidableEq, Repr

/-- Lines 32–38: if the cache directory is absent, create it and download +
extract the remote archive into it (the `remote` argument is the walk of the
extracted archive).  Returns the new state and whether a download happened. -/
def ensureCache (fs : FS) (remote : List WalkEntry) : FS × Bool :=
  if fs.cacheExists then (fs, false)
  else ({ cacheExists := true, tree := remote }, true)

/-- `get_us_shapefile` (lines 28–49): ensure the cache, walk it for a `.shp`
file, and fail (`FileNotFoundError`, modelled as `Except.error ()`) when
`shp_path` is still falsy (`None` or `""`) after the walk.  Result:
(filesystem state after the call, whether a download was performed, the
returned path or the error). -/
def get_us_shapefile (fs : FS) (remote : List WalkEntry) :
    FS × Bool × Except Unit String :=
  let fs' := (ensureCache fs remote).1
  (fs', (ensureCache fs remote).2,
    match locateShp fs'.tree with
    | none => .error ()
    | some p => if p = "" then .error () else .ok p)

/-! ## Map Renderer data model (`plot_us_map`, lines 54–127) -/

/-- A pandas cell: a string, a (finite) number modelled as `ℚ`, or the
missing value `NaN`. -/
inductive Cell where
  | str (s : String)
  | num (q : ℚ)
  | nan
  deriving DecidableEq, Repr

/-- `pd.notnull` (lines 77, 101, 114): false exactly on the missing value. -/
def Cell.notnull : Cell → Bool
  | .nan => false
  | _ => true

/-- A metric cell the Python code can feed to `norm`/format without a type
error: numeric or missing. -/
def Cell.isNumOrNan : Cell → Bool
  | .str _ => false
  | _ => true

/-- One row of the input table: an association list from column name to
cell.  `pd.read_csv` materializes every column in every row, so a missing
association is read as `NaN` (`Row.cell`). -/
def Row := List (String × Cell)

instance : DecidableEq Row := by unfold Row; infer_instance

/-- Value of a row at a column, when the column is present: the first
association whose key is the column name. -/
def Row.get : Row → String → Option Cell
  | [], _ => none
  | p :: rest, c => if p.1 = c then some p.2 else Row.get rest c

/-- Value of a row at a column, reading an absent column as `NaN`. -/
def Row.cell (r : Row) (c : String) : Cell :=
  (r.get c).getD .nan

/-- The input table (`df`): header columns and data rows. -/
structure Table where
  cols : List String
  rows : List Row

/-- One record of the shapefile (`usa`): state name (`NAME`), two-letter
postal code (`STUSPS`), and an abstract polygon geometry identifier. -/
structure GeoRow where
  name : String
  stusps : String
  poly : ℕ
  deriving DecidableEq, Repr

/-- One record of `merged` (line 65): a shapefile record together with the
input row attached by the left merge, or `none` when no input row matched
(in which case every `df` column of the record is `NaN`). -/
structure MergedRow where
  geo : GeoRow
  attached : Option Row
  deriving DecidableEq

/-- The metric cell of a merged record (`merged[value_column]` for one
row): `NaN` when no input row was attached. -/
def MergedRow.value (m : MergedRow) (c : String) : Cell :=
  match m.attached with
  | none => .nan
  | some r => r.cell c

/-- Does this input row match the shapefile record `g` under the merge key
`left_on="NAME", right_on="State"` (line 65)? -/
def matchesState (g : GeoRow) (r : Row) : Bool :=
  r.get "State" = some (.str g.name)

/-- The merged records contributed by one shapefile record: one per
matching input row, or a single unmatched record when none matches
(pandas `how="left"` semantics, line 65). -/
def mergeBlock (g : GeoRow) (df : List Row) : List MergedRow :=
  match df.filter (matchesState g) with
  | [] => [⟨g, none⟩]
  | ms => ms.map (fun r => ⟨g, some r⟩)

/-- `usa.merge(df, left_on="NAME", right_on="State", how="left")`
(line 65), preserving the left (shapefile) order. -/
def pmerge : List GeoRow → List Row → List MergedRow
  | [], _ => []
  | g :: gs, df => mergeBlock g df ++ pmerge gs df

/-! ### Color scale (lines 67–78) -/

/-- The numeric values present (non-`NaN`, non-string) in a column of the
input table, in row order; `df[value_column].min()/.max()` skip `NaN`
(`skipna=True`), so they range over exactly this list. -/
def colVals (rows : List Row) (c : String) : List ℚ :=
  rows.filterMap (fun r =>
    match r.get c with
    | some (.num q) => some q
    | _ => none)

/-- Minimum of a list of numbers, `none` when empty (pandas returns `NaN`
for an all-missing column). -/
def listMin : List ℚ → Option ℚ
  | [] => none
  | x :: xs => some (xs.foldl min x)

/-- Maximum of a list of numbers, `none` when empty. -/
def listMax : List ℚ → Option ℚ
  | [] => none
  | x :: xs => some (xs.foldl max x)

/-- An RGB color with rational channels in `[0, 255]`. -/
structure RGB where
  r : ℚ
  g : ℚ
  b : ℚ
  deriving DecidableEq, Repr

/-- Linear interpolation of one channel. -/
def lerp (a b t : ℚ) : ℚ := a + (b - a) * t

/-- Channel-wise linear interpolation of two colors. -/
def lerpRGB (c d : RGB) (t : ℚ) : RGB :=
  ⟨lerp c.r d.r t, lerp c.g d.g t, lerp c.b d.b t⟩

/-- `#85011C`, the first stop of the gradient (line 70). -/
def stop0 : RGB := ⟨133, 1, 28⟩

/-- `#6E082D`. -/
def stop1 : RGB := ⟨110, 8, 45⟩

/-- `#BA005A`, the middle stop. -/
def stop2 : RGB := ⟨186, 0, 90⟩

/-- `#462A8C`. -/
def stop3 : RGB := ⟨70, 42, 140⟩

/-- `#172378`, the last stop. -/
def stop4 : RGB := ⟨23, 35, 120⟩

/-- `LinearSegmentedColormap.from_list` over the five stops (lines 68–71):
piecewise-linear interpolation with the stops evenly spaced on `[0, 1]`,
out-of-range arguments clipped to the end colors. -/
def cmap (t : ℚ) : RGB :=
  let s := max 0 (min 1 t)
  if s ≤ 1/4 then lerpRGB stop0 stop1 (4 * s)
  else if s ≤ 1/2 then lerpRGB stop1 stop2 (4 * s - 1)
  else if s ≤ 3/4 then lerpRGB stop2 stop3 (4 * s - 2)
  else lerpRGB stop3 stop4 (4 * s - 3)

/-- `matplotlib.colors.Normalize(vmin, vmax)` applied to `x` (line 73):
`(x - vmin) / (vmax - vmin)`, except that a degenerate range
(`vmin == vmax`) is mapped to `0` by an explicit guard in the library
(`if self.vmin == self.vmax: result.fill(0)`), so no division happens. -/
def normValue (vmin vmax x : ℚ) : ℚ :=
  if vmin = vmax then 0 else (x - vmin) / (vmax - vmin)

/-- `normalize` with the division made observable: `none` would mean a
division by zero was attempted.  Used to state that the degenerate-range
guard prevents any division by zero. -/
def normDiv (vmin vmax x : ℚ) : Option ℚ :=
  if vmin = vmax then some 0
  else if vmax - vmin = 0 then none
  else some ((x - vmin) / (vmax - vmin))

/-- A fill color: the grey sentinel `"#DEDEDE"` or a gradient color. -/
inductive Color where
  | grey
  | rgb (c : RGB)
  deriving DecidableEq, Repr

/-- Lines 76–78: `cmap(norm(x)) if pd.notnull(x) else "#DEDEDE"` for the
metric cell of one merged record.  (A string cell would raise in Python;
`plot_us_map` only reaches this map after `isNumOrNan` holds of every
metric cell, so the `.str` branch is unreachable there.) -/
def colorOf (vmin vmax : ℚ) (c : String) (m : MergedRow) : Color :=
  match m.value c with
  | .num q => .rgb (cmap (normValue vmin vmax q))
  | _ => .grey

/-- A centroid label (lines 98–117): the state's postal code, plus the
metric value when present (`f"{code}\n{value:.2f}"`); `value = none` is the
code-only label of the missing branch. -/
structure Label where
  code : String
  value : Option ℚ
  deriving DecidableEq, Repr

/-- Lines 98–106: label of one merged record. -/
def labelOf (c : String) (m : MergedRow) : Label :=
  match m.value c with
  | .num q => ⟨m.geo.stusps, some q⟩
  | _ => ⟨m.geo.stusps, none⟩

/-! ### The render pipeline (lines 54–127) -/

/-- Externally visible events of one `plot_us_map` run, in order:
reading the input table (line 56), invoking the Geometry Provider —
`get_us_shapefile` plus `gpd.read_file`, lines 61–62, including any
first-run network download —, drawing (lines 81–117), saving (line 125). -/
inductive Ev where
  | readInput
  | geoAccess
  | draw
  | save
  deriving DecidableEq, Repr

/-- Errors `plot_us_map` can raise in the modelled fragment:
`ValueError` for a missing `"State"` column (line 58), `KeyError` for a
metric column absent from `df` (first raised by `df[value_column]` on
line 72), `TypeError` for a non-numeric non-null metric cell (raised
inside `norm`/formatting, lines 76–77). -/
inductive RenderErr where
  | missingStateColumn
  | keyError (c : String)
  | typeError
  deriving DecidableEq, Repr

/-- The data computed by a successful run: the merged record set, the
normalization bounds actually used (line 72), and the per-record fill
colors (lines 76–78) and centroid labels (lines 98–117), one of each per
merged record, in merged order. -/
structure Output where
  merged : List MergedRow
  vmin : ℚ
  vmax : ℚ
  colors : List Color
  labels : List Label
  deriving DecidableEq

/-- `plot_us_map(data_path, value_column)` (lines 54–127) on an already
parsed input table `df` and shapefile record list `usa`.  Returns the
events performed, in order, and the outcome.  The `vmin`/`vmax` defaults
for an all-missing metric column stand in for pandas' `NaN`; they are never
consulted in that case, since every metric cell is then `NaN` and colored
grey without invoking `norm`. -/
def plot_us_map (df : Table) (vc : String) (usa : List GeoRow) :
    List Ev × Except RenderErr Output :=
  if ¬ df.cols.contains "State" then
    ([.readInput], .error .missingStateColumn)
  else
    let merged := pmerge usa df.rows
    if ¬ df.cols.contains vc then
      ([.readInput, .geoAccess], .error (.keyError vc))
    else if ¬ merged.all (fun m => (m.value vc).isNumOrNan) then
      ([.readInput, .geoAccess], .error .typeError)
    else
      let vmn := (listMin (colVals df.rows vc)).getD 0
      let vmx := (listMax (colVals df.rows vc)).getD 0
      ([.readInput, .geoAccess, .draw, .save],
        .ok { merged := merged
              vmin := vmn
              vmax := vmx
              colors := merged.map (colorOf vmn vmx vc)
              labels := merged.map (labelOf vc) })

/-- The events of a run. -/
def plotEvents (df : Table) (vc : String) (usa : List GeoRow) : List Ev :=
  (plot_us_map df vc usa).1

/-- The outcome of a run. -/
def plotResult (df : Table) (vc : String) (usa : List GeoRow) :
    Except RenderErr Output :=
  (plot_us_map df vc usa).2

/-- The `vmax` of a successful run. -/
def plotVmax (df : Table) (vc : String) (usa : List GeoRow) : Option ℚ :=
  match plotResult df vc usa with
  | .ok o => some o.vmax
  | .error _ => none

/-- The colors of a successful run. -/
def plotColors (df : Table) (vc : String) (usa : List GeoRow) :
    Option (List Color) :=
  match plotResult df vc usa with
  | .ok o => some o.colors
  | .error _ => none

/-- The metric values actually attached to a shapefile polygon by the
merge, written from the spec's words for claim C5: «min/max of the metric
column across present (non-missing) values … of the joined records, i.e.
only over values actually attached to a geometry polygon».  Compare with
the `colVals df.rows` the code uses on line 72. -/
def joinedVals (merged : List MergedRow) (c : String) : List ℚ :=
  merged.filterMap (fun m =>
    match m.value c with
    | .num q => some q
    | _ => none)

/-- Did a run of `plot_us_map` finish without raising? -/
def isOkRun (p : List Ev × Except RenderErr Output) : Bool :=
  match p.2 with
  | .ok _ => true
  | .error _ => false

/-! ### Concrete test fixtures

Small shapefiles, input tables and directory trees used to instantiate the
theorems at concrete inputs. -/

/-- A shapefile record for California. -/
def calif : GeoRow := ⟨"California", "CA", 0⟩

/-- A shapefile record for Texas. -/
def texas : GeoRow := ⟨"Texas", "TX", 1⟩

/-- Input row: California, metric value 1. -/
def rowCA : Row := [("State", Cell.str "California"), ("Tax", Cell.num 1)]

/-- Input row: California again, metric value 3 (a duplicate state name). -/
def rowCA3 : Row := [("State", Cell.str "California"), ("Tax", Cell.num 3)]

/-- Input row: Atlantis, metric value 5 — a state name matching no
shapefile record. -/
def rowAT : Row := [("State", Cell.str "Atlantis"), ("Tax", Cell.num 5)]

/-- Input row: California, metric value 2. -/
def rowEq : Row := [("State", Cell.str "California"), ("Tax", Cell.num 2)]

/-- A one-row input table. -/
def dfW1 : Table := ⟨["State", "Tax"], [rowCA]⟩

/-- An input table with one matching and one unmatched row. -/
def dfAtl : Table := ⟨["State", "Tax"], [rowCA, rowAT]⟩

/-- A one-row input table whose only metric value is 2. -/
def dfEq : Table := ⟨["State", "Tax"], [rowEq]⟩

/-- An input table with two rows for the same state. -/
def dfDup : Table := ⟨["State", "Tax"], [rowCA, rowCA3]⟩

/-- An input table without the required state-name column. -/
def dfNoState : Table := ⟨["Name"], []⟩

/-- An input table with the state-name column but no metric column. -/
def dfStateOnly : Table := ⟨["State"], []⟩

/-- A two-record shapefile. -/
def usaW : List GeoRow := [calif, texas]

/-- Expected output of `plot_us_map dfW1 "Tax" usaW`. -/
def outW1 : Output :=
  { merged := [⟨calif, some rowCA⟩, ⟨texas, none⟩]
    vmin := 1
    vmax := 1
    colors := [Color.rgb stop0, Color.grey]
    labels := [⟨"CA", some 1⟩, ⟨"TX", none⟩] }

/-- Expected output of `plot_us_map dfAtl "Tax" [calif]`. -/
def outAtl : Output :=
  { merged := [⟨calif, some rowCA⟩]
    vmin := 1
    vmax := 5
    colors := [Color.rgb stop0]
    labels := [⟨"CA", some 1⟩] }

/-- Expected output of `plot_us_map dfEq "Tax" [calif]`. -/
def outEq : Output :=
  { merged := [⟨calif, some rowEq⟩]
    vmin := 2
    vmax := 2
    colors := [Color.rgb stop0]
    labels := [⟨"CA", some 2⟩] }

/-- Expected output of `plot_us_map dfDup "Tax" [calif]`. -/
def outDup : Output :=
  { merged := [⟨calif, some rowCA⟩, ⟨calif, some rowCA3⟩]
    vmin := 1
    vmax := 3
    colors := [Color.rgb stop0, Color.rgb stop4]
    labels := [⟨"CA", some 1⟩, ⟨"CA", some 3⟩] }

/-- A cache tree in which two directories hold a `.shp` file. -/
def twoDirTree : List WalkEntry := [⟨"a", ["x.shp"]⟩, ⟨"b", ["y.shp"]⟩]

/-- A filesystem whose cache directory exists with `twoDirTree` inside. -/
def fsTwoDir : FS := ⟨true, twoDirTree⟩

/-- A filesystem whose cache directory exists but holds no `.shp` file. -/
def fsNoShp : FS := ⟨true, [⟨"docs", ["readme.txt"]⟩]⟩

/-! ## Helper lemmas -/

theorem ensureCache_of_exists {fs : FS} (remote : List WalkEntry)
    (h : fs.cacheExists = true) : ensureCache fs remote = (fs, false) := by
  simp [ensureCache, h]

theorem ensureCache_of_absent {fs : FS} (remote : List WalkEntry)
    (h : fs.cacheExists = false) :
    ensureCache fs remote = ({ cacheExists := true, tree := remote }, true) := by
  simp [ensureCache, h]

theorem dirShp_ne_empty {e : WalkEntry} {p : String} (h : dirShp e = some p) :
    p ≠ "" := by
  unfold dirShp at h
  rcases Option.map_eq_some'.mp h with ⟨f, _, rfl⟩
  intro hcontra
  have hlen : (pathJoin e.root f).length = 0 := by rw [hcontra]; rfl
  have h1 : ("/" : String).length = 1 := rfl
  simp only [pathJoin, String.length_append] at hlen
  omega

/-- The walk loop computes `lastDirShp`: later directories overwrite
earlier finds. -/
theorem locateShp_eq_lastDirShp (walk : List WalkEntry) :
    locateShp walk = lastDirShp walk := by
  suffices h : ∀ acc, walk.foldl findShpStep acc =
      match lastDirShp walk with
      | some p => some p
      | none => acc by
    rw [locateShp, h none]
    cases lastDirShp walk <;> rfl
  induction walk with
  | nil => intro acc; simp [lastDirShp]
  | cons e rest ih =>
    intro acc
    simp only [List.foldl_cons, ih]
    cases hr : lastDirShp rest with
    | some p => simp [lastDirShp, hr]
    | none =>
      cases he : dirShp e with
      | some p => simp [lastDirShp, hr, he, findShpStep]
      | none => simp [lastDirShp, hr, he, findShpStep]

theorem lastDirShp_ne_empty {walk : List WalkEntry} {p : String}
    (h : lastDirShp walk = some p) : p ≠ "" := by
  induction walk with
  | nil => simp [lastDirShp] at h
  | cons e rest ih =>
    unfold lastDirShp at h
    cases hr : lastDirShp rest with
    | some q => rw [hr] at h; exact ih (hr.trans h)
    | none => rw [hr] at h; exact dirShp_ne_empty h

/-- `lastDirShp` is `none` exactly when no file of the walk has the `.shp`
extension. -/
theorem lastDirShp_eq_none_iff (walk : List WalkEntry) :
    lastDirShp walk = none ↔ ∀ e ∈ walk, ∀ f ∈ e.files, ¬ isShp f := by
  induction walk with
  | nil => simp [lastDirShp]
  | cons e rest ih =>
    unfold lastDirShp
    cases hr : lastDirShp rest with
    | some q =>
      simp only [reduceCtorEq, false_iff]
      intro hall
      have : lastDirShp rest = none := by
        rw [ih]; intro e' he' f hf; exact hall e' (List.mem_cons_of_mem _ he') f hf
      simp [this] at hr
    | none =>
      have hrest : ∀ e' ∈ rest, ∀ f ∈ e'.files, ¬ isShp f := ih.mp hr
      constructor
      · intro hnone e' he' f hf
        rcases List.mem_cons.mp he' with rfl | hmem
        · intro hshp
          have : ∃ g ∈ e'.files, isShp g = true := ⟨f, hf, hshp⟩
          rcases List.find?_isSome.mpr (by simpa using this) |> Option.isSome_iff_exists.mp
            with ⟨g, hg⟩
          simp [dirShp, hg] at hnone
        · exact hrest e' hmem f hf
      · intro hall
        cases he : e.files.find? isShp with
        | none => simp [dirShp, he]
        | some g =>
          have hg := List.find?_some he
          have hmem := List.mem_of_find?_eq_some he
          exact absurd hg (by simpa using hall e (List.mem_cons_self e rest) g hmem)

theorem mem_mergeBlock {g : GeoRow} {df : List Row} {m : MergedRow}
    (h : m ∈ mergeBlock g df) :
    m.geo = g ∧ ∀ r, m.attached = some r → r ∈ df ∧ matchesState g r = true := by
  unfold mergeBlock at h
  cases hf : df.filter (matchesState g) with
  | nil =>
    rw [hf] at h
    rcases List.mem_singleton.mp h with rfl
    exact ⟨rfl, fun r hr => by simp at hr⟩
  | cons r0 rest =>
    rw [hf] at h
    rcases List.mem_map.mp h with ⟨r, hr, rfl⟩
    have hrf : r ∈ df.filter (matchesState g) := by rw [hf]; exact hr
    refine ⟨rfl, fun r' hr' => ?_⟩
    cases hr'
    exact ⟨List.mem_of_mem_filter hrf, List.of_mem_filter hrf⟩

theorem mergeBlock_ne_nil (g : GeoRow) (df : List Row) : mergeBlock g df ≠ [] := by
  unfold mergeBlock
  cases hf : df.filter (matchesState g) with
  | nil => simp
  | cons r0 rest => simp

theorem geo_eq_of_mem_mergeBlock {g : GeoRow} {df : List Row} {m : MergedRow}
    (h : m ∈ mergeBlock g df) : m.geo = g :=
  (mem_mergeBlock h).1

theorem mem_pmerge {usa : List GeoRow} {df : List Row} {m : MergedRow}
    (h : m ∈ pmerge usa df) :
    m.geo ∈ usa ∧ ∀ r, m.attached = some r →
      r ∈ df ∧ matchesState m.geo r = true := by
  induction usa with
  | nil => simp [pmerge] at h
  | cons g gs ih =>
    rcases List.mem_append.mp h with hb | hrest
    · rcases mem_mergeBlock hb with ⟨hg, hr⟩
      exact ⟨by rw [hg]; exact List.mem_cons_self g gs, by rw [hg]; exact hr⟩
    · rcases ih hrest with ⟨hg, hr⟩
      exact ⟨List.mem_cons_of_mem g hg, hr⟩

theorem exists_mem_pmerge {usa : List GeoRow} {df : List Row} {g : GeoRow}
    (h : g ∈ usa) : ∃ m ∈ pmerge usa df, m.geo = g := by
  induction usa with
  | nil => simp at h
  | cons g' gs ih =>
    rcases List.mem_cons.mp h with rfl | hmem
    · rcases List.exists_mem_of_ne_nil _ (mergeBlock_ne_nil g df) with ⟨m, hm⟩
      exact ⟨m, List.mem_append_left _ hm, geo_eq_of_mem_mergeBlock hm⟩
    · rcases ih hmem with ⟨m, hm, hgeo⟩
      exact ⟨m, List.mem_append_right _ hm, hgeo⟩

theorem foldl_min_all_eq {x : ℚ} {xs : List ℚ} (h : ∀ a ∈ xs, a = x) :
    xs.foldl min x = x := by
  induction xs with
  | nil => rfl
  | cons y ys ih =>
    have hy : y = x := h y (List.mem_cons_self y ys)
    rw [List.foldl_cons, hy, min_self]
    exact ih (fun a ha => h a (List.mem_cons_of_mem _ ha))

theorem foldl_max_all_eq {x : ℚ} {xs : List ℚ} (h : ∀ a ∈ xs, a = x) :
    xs.foldl max x = x := by
  induction xs with
  | nil => rfl
  | cons y ys ih =>
    have hy : y = x := h y (List.mem_cons_self y ys)
    rw [List.foldl_cons, hy, max_self]
    exact ih (fun a ha => h a (List.mem_cons_of_mem _ ha))

theorem listMin_all_eq {l : List ℚ} {v : ℚ} (hne : l ≠ [])
    (hall : ∀ q ∈ l, q = v) : listMin l = some v := by
  cases l with
  | nil => exact absurd rfl hne
  | cons x xs =>
    have hx : x = v := hall x (List.mem_cons_self x xs)
    subst hx
    simp only [listMin, Option.some_inj]
    exact foldl_min_all_eq (fun a ha => hall a (List.mem_cons_of_mem _ ha))

theorem listMax_all_eq {l : List ℚ} {v : ℚ} (hne : l ≠ [])
    (hall : ∀ q ∈ l, q = v) : listMax l = some v := by
  cases l with
  | nil => exact absurd rfl hne
  | cons x xs =>
    have hx : x = v := hall x (List.mem_cons_self x xs)
    subst hx
    simp only [listMax, Option.some_inj]
    exact foldl_max_all_eq (fun a ha => hall a (List.mem_cons_of_mem _ ha))

theorem mem_colVals {rows : List Row} {r : Row} {c : String} {q : ℚ}
    (hr : r ∈ rows) (hget : r.get c = some (.num q)) : q ∈ colVals rows c := by
  unfold colVals
  exact List.mem_filterMap.mpr ⟨r, hr, by rw [hget]⟩

/-- The state name of an unmatched input row never satisfies the merge
predicate, so appending such a row leaves the merge unchanged. -/
theorem pmerge_append_unmatched (usa : List GeoRow) (df : List Row) {r : Row}
    (h : ∀ g ∈ usa, r.get "State" ≠ some (.str g.name)) :
    pmerge usa (df ++ [r]) = pmerge usa df := by
  induction usa with
  | nil => rfl
  | cons g gs ih =>
    have hg : matchesState g r = false := by
      unfold matchesState
      simpa using h g (List.mem_cons_self g gs)
    have hblock : mergeBlock g (df ++ [r]) = mergeBlock g df := by
      unfold mergeBlock
      rw [List.filter_append]
      simp [List.filter, hg]
    simp only [pmerge, hblock, ih (fun g' hg' => h g' (List.mem_cons_of_mem _ hg'))]

/-- How many merged records one shapefile record contributes: one per
matching row, or a single unmatched record. -/
theorem length_mergeBlock (g : GeoRow) (df : List Row) :
    (mergeBlock g df).length = max 1 (df.filter (matchesState g)).length := by
  unfold mergeBlock
  cases hf : df.filter (matchesState g) with
  | nil => simp
  | cons r0 rest =>
    simp only [List.length_map, List.length_cons]
    omega

theorem countP_mergeBlock (g g' : GeoRow) (df : List Row) :
    (mergeBlock g' df).countP (fun m => m.geo = g) =
      if g' = g then (mergeBlock g' df).length else 0 := by
  rcases eq_or_ne g' g with rfl | hne
  · rw [if_pos rfl, List.countP_eq_length]
    intro m hm
    simp [geo_eq_of_mem_mergeBlock hm]
  · rw [if_neg hne, List.countP_eq_zero]
    intro m hm
    simp [geo_eq_of_mem_mergeBlock hm, hne]

/-- Multiplicity of a polygon in the merged record set: once per copy of it
in the shapefile when no row matches, and once per (copy, matching row)
pair otherwise. -/
theorem countP_pmerge (usa : List GeoRow) (df : List Row) (g : GeoRow) :
    (pmerge usa df).countP (fun m => m.geo = g) =
      usa.countP (fun g' => g' = g) *
        max 1 (df.filter (matchesState g)).length := by
  induction usa with
  | nil => simp [pmerge]
  | cons g' gs ih =>
    simp only [pmerge, List.countP_append, List.countP_cons, ih,
      countP_mergeBlock]
    rcases eq_or_ne g' g with rfl | hne
    · rw [if_pos rfl, length_mergeBlock]
      simp only [decide_True, if_true]
      ring
    · simp [hne]

theorem plot_ok_conditions {df : Table} {vc : String} {usa : List GeoRow}
    {evs : List Ev} {out : Output}
    (h : plot_us_map df vc usa = (evs, .ok out)) :
    "State" ∈ df.cols ∧ vc ∈ df.cols ∧
    ∀ m ∈ pmerge usa df.rows, (m.value vc).isNumOrNan = true := by
  by_cases h1 : "State" ∈ df.cols
  · by_cases h2 : vc ∈ df.cols
    · by_cases h3 : ∀ m ∈ pmerge usa df.rows, (m.value vc).isNumOrNan = true
      · exact ⟨h1, h2, h3⟩
      · have h3' : ∃ m ∈ pmerge usa df.rows, (m.value vc).isNumOrNan = false := by
          push_neg at h3
          rcases h3 with ⟨m, hm, hf⟩
          exact ⟨m, hm, by simpa using hf⟩
        simp [plot_us_map, h1, h2, h3'] at h
    · simp [plot_us_map, h1, h2] at h
  · simp [plot_us_map, h1] at h

theorem plot_ok_eq {df : Table} {vc : String} {usa : List GeoRow}
    {evs : List Ev} {out : Output}
    (h : plot_us_map df vc usa = (evs, .ok out)) :
    evs = [.readInput, .geoAccess, .draw, .save] ∧
    out = { merged := pmerge usa df.rows
            vmin := (listMin (colVals df.rows vc)).getD 0
            vmax := (listMax (colVals df.rows vc)).getD 0
            colors := (pmerge usa df.rows).map
              (colorOf ((listMin (colVals df.rows vc)).getD 0)
                ((listMax (colVals df.rows vc)).getD 0) vc)
            labels := (pmerge usa df.rows).map (labelOf vc) } := by
  obtain ⟨h1, h2, h3⟩ := plot_ok_conditions h
  have h3' : ¬ ∃ m ∈ pmerge usa df.rows, (m.value vc).isNumOrNan = false := by
    rintro ⟨m, hm, hf⟩
    exact absurd (h3 m hm) (by simp [hf])
  simp [plot_us_map, h1, h2, h3'] at h
  exact ⟨h.1.symm, h.2.symm⟩

theorem plot_us_map_eq_ok {df : Table} {vc : String} {usa : List GeoRow}
    (h1 : "State" ∈ df.cols) (h2 : vc ∈ df.cols)
    (h3 : ∀ m ∈ pmerge usa df.rows, (m.value vc).isNumOrNan = true) :
    plot_us_map df vc usa = ([.readInput, .geoAccess, .draw, .save],
      .ok { merged := pmerge usa df.rows
            vmin := (listMin (colVals df.rows vc)).getD 0
            vmax := (listMax (colVals df.rows vc)).getD 0
            colors := (pmerge usa df.rows).map
              (colorOf ((listMin (colVals df.rows vc)).getD 0)
                ((listMax (colVals df.rows vc)).getD 0) vc)
            labels := (pmerge usa df.rows).map (labelOf vc) }) := by
  have h3' : ¬ ∃ m ∈ pmerge usa df.rows, (m.value vc).isNumOrNan = false := by
    rintro ⟨m, hm, hf⟩
    exact absurd (h3 m hm) (by simp [hf])
  simp [plot_us_map, h1, h2, h3']

/-- With the cache directory present, `get_us_shapefile` succeeds with the
first `.shp` file of the last directory (in walk order) containing one, and
fails exactly when the walk finds none. -/
theorem get_us_shapefile_cached (fs : FS) (remote : List WalkEntry)
    (h : fs.cacheExists = true) :
    (get_us_shapefile fs remote).2.2 =
      match lastDirShp fs.tree with
      | some p => Except.ok p
      | none => Except.error () := by
  have hsnd : (get_us_shapefile fs remote).2.2 =
      (match locateShp fs.tree with
       | none => Except.error ()
       | some p => if p = "" then Except.error () else Except.ok p) := by
    unfold get_us_shapefile
    rw [ensureCache_of_exists remote h]
  rw [hsnd, locateShp_eq_lastDirShp]
  cases hl : lastDirShp fs.tree with
  | none => rfl
  | some p => simp [if_neg (lastDirShp_ne_empty hl)]

/-! ### Evaluation of the pipeline on the fixtures -/

theorem value_attached_CA : MergedRow.value ⟨calif, some rowCA⟩ "Tax" = Cell.num 1 := by
  simp [MergedRow.value, Row.cell, Row.get, rowCA]

theorem value_attached_CA3 : MergedRow.value ⟨calif, some rowCA3⟩ "Tax" = Cell.num 3 := by
  simp [MergedRow.value, Row.cell, Row.get, rowCA3]

theorem value_attached_Eq : MergedRow.value ⟨calif, some rowEq⟩ "Tax" = Cell.num 2 := by
  simp [MergedRow.value, Row.cell, Row.get, rowEq]

theorem value_unattached_TX : MergedRow.value ⟨texas, none⟩ "Tax" = Cell.nan := by
  simp [MergedRow.value]

theorem label_CA : labelOf "Tax" ⟨calif, some rowCA⟩ = ⟨"CA", some 1⟩ := by
  simp only [labelOf, value_attached_CA]
  simp [calif]

theorem label_CA3 : labelOf "Tax" ⟨calif, some rowCA3⟩ = ⟨"CA", some 3⟩ := by
  simp only [labelOf, value_attached_CA3]
  simp [calif]

theorem label_Eq : labelOf "Tax" ⟨calif, some rowEq⟩ = ⟨"CA", some 2⟩ := by
  simp only [labelOf, value_attached_Eq]
  simp [calif]

theorem label_TX : labelOf "Tax" ⟨texas, none⟩ = ⟨"TX", none⟩ := by
  simp only [labelOf, value_unattached_TX]
  simp [texas]

theorem run_dfW1 : plot_us_map dfW1 "Tax" usaW =
    ([.readInput, .geoAccess, .draw, .save], .ok outW1) := by
  have h1 : "State" ∈ dfW1.cols := by simp [dfW1]
  have h2 : "Tax" ∈ dfW1.cols := by simp [dfW1]
  have hm : pmerge usaW dfW1.rows = [⟨calif, some rowCA⟩, ⟨texas, none⟩] := by
    simp [usaW, dfW1, pmerge, mergeBlock, matchesState, Row.get, rowCA, calif, texas]
  have hv : colVals dfW1.rows "Tax" = [1] := by
    simp [dfW1, colVals, rowCA, Row.get]
  have h3 : ∀ m ∈ pmerge usaW dfW1.rows, (m.value "Tax").isNumOrNan = true := by
    rw [hm]
    intro m hmem
    rcases List.mem_cons.mp hmem with rfl | hmem2
    · simp [value_attached_CA, Cell.isNumOrNan]
    · rcases List.mem_singleton.mp hmem2 with rfl
      simp [value_unattached_TX, Cell.isNumOrNan]
  have hcol1 : colorOf 1 1 "Tax" ⟨calif, some rowCA⟩ = Color.rgb stop0 := by
    simp only [colorOf, value_attached_CA]
    norm_num [normValue, cmap, lerpRGB, lerp, stop0, stop1, min_def, max_def]
  have hcol2 : colorOf 1 1 "Tax" ⟨texas, none⟩ = Color.grey := by
    simp only [colorOf, value_unattached_TX]
  have hmin : (listMin (colVals dfW1.rows "Tax")).getD 0 = 1 := by rw [hv]; rfl
  have hmax : (listMax (colVals dfW1.rows "Tax")).getD 0 = 1 := by rw [hv]; rfl
  rw [plot_us_map_eq_ok h1 h2 h3, hmin, hmax, hm]
  simp [outW1, hcol1, hcol2, label_CA, label_TX]

theorem run_dfAtl : plot_us_map dfAtl "Tax" [calif] =
    ([.readInput, .geoAccess, .draw, .save], .ok outAtl) := by
  have h1 : "State" ∈ dfAtl.cols := by simp [dfAtl]
  have h2 : "Tax" ∈ dfAtl.cols := by simp [dfAtl]
  have hm : pmerge [calif] dfAtl.rows = [⟨calif, some rowCA⟩] := by
    simp [dfAtl, pmerge, mergeBlock, matchesState, Row.get, rowCA, rowAT, calif]
  have hv : colVals dfAtl.rows "Tax" = [1, 5] := by
    simp [dfAtl, colVals, rowCA, rowAT, Row.get]
  have h3 : ∀ m ∈ pmerge [calif] dfAtl.rows, (m.value "Tax").isNumOrNan = true := by
    rw [hm]
    intro m hmem
    rcases List.mem_singleton.mp hmem with rfl
    simp [value_attached_CA, Cell.isNumOrNan]
  have hmin : (listMin (colVals dfAtl.rows "Tax")).getD 0 = 1 := by
    rw [hv]; norm_num [listMin, min_def]
  have hmax : (listMax (colVals dfAtl.rows "Tax")).getD 0 = 5 := by
    rw [hv]; norm_num [listMax, max_def]
  have hcol1 : colorOf 1 5 "Tax" ⟨calif, some rowCA⟩ = Color.rgb stop0 := by
    simp only [colorOf, value_attached_CA]
    norm_num [normValue, cmap, lerpRGB, lerp, stop0, stop1, min_def, max_def]
  rw [plot_us_map_eq_ok h1 h2 h3, hmin, hmax, hm]
  simp [outAtl, hcol1, label_CA]

theorem run_dfEq : plot_us_map dfEq "Tax" [calif] =
    ([.readInput, .geoAccess, .draw, .save], .ok outEq) := by
  have h1 : "State" ∈ dfEq.cols := by simp [dfEq]
  have h2 : "Tax" ∈ dfEq.cols := by simp [dfEq]
  have hm : pmerge [calif] dfEq.rows = [⟨calif, some rowEq⟩] := by
    simp [dfEq, pmerge, mergeBlock, matchesState, Row.get, rowEq, calif]
  have hv : colVals dfEq.rows "Tax" = [2] := by
    simp [dfEq, colVals, rowEq, Row.get]
  have h3 : ∀ m ∈ pmerge [calif] dfEq.rows, (m.value "Tax").isNumOrNan = true := by
    rw [hm]
    intro m hmem
    rcases List.mem_singleton.mp hmem with rfl
    simp [value_attached_Eq, Cell.isNumOrNan]
  have hmin : (listMin (colVals dfEq.rows "Tax")).getD 0 = 2 := by rw [hv]; rfl
  have hmax : (listMax (colVals dfEq.rows "Tax")).getD 0 = 2 := by rw [hv]; rfl
  have hcol1 : colorOf 2 2 "Tax" ⟨calif, some rowEq⟩ = Color.rgb stop0 := by
    simp only [colorOf, value_attached_Eq]
    norm_num [normValue, cmap, lerpRGB, lerp, stop0, stop1, min_def, max_def]
  rw [plot_us_map_eq_ok h1 h2 h3, hmin, hmax, hm]
  simp [outEq, hcol1, label_Eq]

theorem run_dfDup : plot_us_map dfDup "Tax" [calif] =
    ([.readInput, .geoAccess, .draw, .save], .ok outDup) := by
  have h1 : "State" ∈ dfDup.cols := by simp [dfDup]
  have h2 : "Tax" ∈ dfDup.cols := by simp [dfDup]
  have hm : pmerge [calif] dfDup.rows = [⟨calif, some rowCA⟩, ⟨calif, some rowCA3⟩] := by
    simp [dfDup, pmerge, mergeBlock, matchesState, Row.get, rowCA, rowCA3, calif]
  have hv : colVals dfDup.rows "Tax" = [1, 3] := by
    simp [dfDup, colVals, rowCA, rowCA3, Row.get]
  have h3 : ∀ m ∈ pmerge [calif] dfDup.rows, (m.value "Tax").isNumOrNan = true := by
    rw [hm]
    intro m hmem
    rcases List.mem_cons.mp hmem with rfl | hmem2
    · simp [value_attached_CA, Cell.isNumOrNan]
    · rcases List.mem_singleton.mp hmem2 with rfl
      simp [value_attached_CA3, Cell.isNumOrNan]
  have hmin : (listMin (colVals dfDup.rows "Tax")).getD 0 = 1 := by
    rw [hv]; norm_num [listMin, min_def]
  have hmax : (listMax (colVals dfDup.rows "Tax")).getD 0 = 3 := by
    rw [hv]; norm_num [listMax, max_def]
  have hcol1 : colorOf 1 3 "Tax" ⟨calif, some rowCA⟩ = Color.rgb stop0 := by
    simp only [colorOf, value_attached_CA]
    norm_num [normValue, cmap, lerpRGB, lerp, stop0, stop1, min_def, max_def]
  have hcol2 : colorOf 1 3 "Tax" ⟨calif, some rowCA3⟩ = Color.rgb stop4 := by
    simp only [colorOf, value_attached_CA3]
    norm_num [normValue, cmap, lerpRGB, lerp, stop0, stop1, stop2, stop3, stop4,
      min_def, max_def]
  rw [plot_us_map_eq_ok h1 h2 h3, hmin, hmax, hm]
  simp [outDup, hcol1, hcol2, label_CA, label_CA3]

/-! ## Claim theorems -/

/-- Claim C2, counterexample: on a cache tree whose directories `"a"` and
`"b"` each contain a `.shp` file, `get_us_shapefile` returns `"b/y.shp"`,
while the first `.shp` file encountered in the directory-tree search is
`"a/x.shp"` — the claim that the first file encountered is returned fails. -/
theorem C2_counterexample :
    (get_us_shapefile fsTwoDir []).2.2 = Except.ok "b/y.shp" ∧
    firstShp fsTwoDir.tree = some "a/x.shp" ∧
    ("b/y.shp" : String) ≠ "a/x.shp" :=
  ⟨rfl, by decide, by decide⟩

/-- Claim C2, amended: with the cache directory present,
`get_us_shapefile` returns the first `.shp` file of the *last* directory
(in walk order) that contains one — not the first file encountered — and
fails when there is none.  The inner `break` only exits the loop over one
directory's files, so later directories overwrite the found path. -/
theorem C2_shapefile_from_last_directory (fs : FS) (remote : List WalkEntry)
    (h : fs.cacheExists = true) :
    (get_us_shapefile fs remote).2.2 =
      match lastDirShp fs.tree with
      | some p => Except.ok p
      | none => Except.error () :=
  get_us_shapefile_cached fs remote h

theorem C2_shapefile_from_last_directory_witness :
    (get_us_shapefile fsTwoDir []).2.2 =
      match lastDirShp fsTwoDir.tree with
      | some p => Except.ok p
      | none => Except.error () :=
  C2_shapefile_from_last_directory fsTwoDir [] rfl

/-- Claim C7: with the cache directory present, `get_us_shapefile` raises
`FileNotFoundError` exactly when no file of the cache tree has the `.shp`
extension. -/
theorem C7_not_found_iff_no_shp (fs : FS) (remote : List WalkEntry)
    (h : fs.cacheExists = true) :
    ((get_us_shapefile fs remote).2.2 = Except.error ()) ↔
      (∀ e ∈ fs.tree, ∀ f ∈ e.files, ¬ isShp f) := by
  rw [get_us_shapefile_cached fs remote h]
  cases hl : lastDirShp fs.tree with
  | none =>
    constructor
    · intro _
      exact (lastDirShp_eq_none_iff fs.tree).mp hl
    · intro _
      rfl
  | some p =>
    constructor
    · intro he
      exact absurd he (by simp)
    · intro hall
      exact absurd ((lastDirShp_eq_none_iff fs.tree).mpr hall) (by simp [hl])

theorem C7_not_found_iff_no_shp_witness :
    ((get_us_shapefile fsNoShp []).2.2 = Except.error ()) ↔
      (∀ e ∈ fsNoShp.tree, ∀ f ∈ e.files, ¬ isShp f) :=
  C7_not_found_iff_no_shp fsNoShp [] rfl

/-- Claim C8: the download-and-extract step runs exactly when the cache
directory is absent at the start of the call; afterwards the cache
directory exists, so a subsequent call never downloads again, whatever the
cache contents are. -/
theorem C8_download_iff_cache_absent (fs : FS) (remote remote2 : List WalkEntry) :
    ((get_us_shapefile fs remote).2.1 = true ↔ fs.cacheExists = false) ∧
    (get_us_shapefile fs remote).1.cacheExists = true ∧
    (get_us_shapefile (get_us_shapefile fs remote).1 remote2).2.1 = false := by
  have hdl : ∀ (fs0 : FS) (r : List WalkEntry),
      (get_us_shapefile fs0 r).2.1 = (ensureCache fs0 r).2 := fun _ _ => rfl
  have hfst : ∀ (fs0 : FS) (r : List WalkEntry),
      (get_us_shapefile fs0 r).1 = (ensureCache fs0 r).1 := fun _ _ => rfl
  have hex : ∀ (fs0 : FS) (r : List WalkEntry),
      ((ensureCache fs0 r).1).cacheExists = true := by
    intro fs0 r
    cases hc : fs0.cacheExists <;> simp [ensureCache, hc]
  have hd : ∀ (fs0 : FS) (r : List WalkEntry),
      (ensureCache fs0 r).2 = !fs0.cacheExists := by
    intro fs0 r
    cases hc : fs0.cacheExists <;> simp [ensureCache, hc]
  refine ⟨?_, ?_, ?_⟩
  · rw [hdl, hd]
    cases fs.cacheExists <;> simp
  · rw [hfst]
    exact hex fs remote
  · rw [hdl, hd, hfst, hex]
    rfl

/-- Claim C4: an input table without the `"State"` column makes the
renderer raise the validation error (`ValueError`), and the Geometry
Provider is never invoked — no geometry or network access happens. -/
theorem C4_missing_state_column (df : Table) (vc : String) (usa : List GeoRow)
    (h : "State" ∉ df.cols) :
    plotResult df vc usa = .error .missingStateColumn ∧
    Ev.geoAccess ∉ plotEvents df vc usa := by
  constructor
  · simp [plotResult, plot_us_map, h]
  · simp [plotEvents, plot_us_map, h]

theorem C4_missing_state_column_witness :
    plotResult dfNoState "Tax" usaW = .error .missingStateColumn ∧
    Ev.geoAccess ∉ plotEvents dfNoState "Tax" usaW :=
  C4_missing_state_column dfNoState "Tax" usaW (by decide)

/-- Claim C9: an input table with the `"State"` column but without the
metric column does not fail validation early: the `KeyError` on the metric
column is raised only after the Geometry Provider has been invoked. -/
theorem C9_missing_metric_column (df : Table) (vc : String) (usa : List GeoRow)
    (hs : "State" ∈ df.cols) (hv : vc ∉ df.cols) :
    plotResult df vc usa = .error (.keyError vc) ∧
    Ev.geoAccess ∈ plotEvents df vc usa := by
  constructor
  · simp [plotResult, plot_us_map, hs, hv]
  · simp [plotEvents, plot_us_map, hs, hv]

theorem C9_missing_metric_column_witness :
    plotResult dfStateOnly "Tax" usaW = .error (.keyError "Tax") ∧
    Ev.geoAccess ∈ plotEvents dfStateOnly "Tax" usaW :=
  C9_missing_metric_column dfStateOnly "Tax" usaW (by decide) (by decide)

/-- Claim C1: in every successful run, every polygon of the geometry source
appears in the joined record set; the run's colors and labels assign one
color/label per joined record; a record with no matching input row gets the
grey sentinel color and a code-only label; hence when no input row matches
any polygon, every color is grey and every label is code-only. -/
theorem C1_every_polygon_in_output (df : Table) (vc : String)
    (usa : List GeoRow) (evs : List Ev) (out : Output)
    (h : plot_us_map df vc usa = (evs, .ok out)) :
    (∀ g ∈ usa, ∃ m ∈ out.merged, m.geo = g) ∧
    out.colors = out.merged.map (colorOf out.vmin out.vmax vc) ∧
    out.labels = out.merged.map (labelOf vc) ∧
    (∀ m ∈ out.merged, m.attached = none →
      colorOf out.vmin out.vmax vc m = Color.grey ∧
      labelOf vc m = ⟨m.geo.stusps, none⟩) ∧
    ((∀ r ∈ df.rows, ∀ g ∈ usa, r.get "State" ≠ some (Cell.str g.name)) →
      (∀ c ∈ out.colors, c = Color.grey) ∧
      (∀ l ∈ out.labels, l.value = none)) := by
  obtain ⟨hevs, hout⟩ := plot_ok_eq h
  subst hout
  refine ⟨?_, rfl, rfl, ?_, ?_⟩
  · intro g hg
    exact exists_mem_pmerge hg
  · intro m hm hatt
    constructor
    · simp [colorOf, MergedRow.value, hatt]
    · simp [labelOf, MergedRow.value, hatt]
  · intro hnone
    have hall : ∀ m ∈ pmerge usa df.rows, m.attached = none := by
      intro m hm
      cases hatt : m.attached with
      | none => rfl
      | some r =>
        rcases (mem_pmerge hm).2 r hatt with ⟨hrmem, hmatch⟩
        have hst : r.get "State" = some (Cell.str m.geo.name) := by
          simpa [matchesState] using hmatch
        exact absurd hst (hnone r hrmem m.geo (mem_pmerge hm).1)
    constructor
    · intro c hc
      rcases List.mem_map.mp hc with ⟨m, hm, rfl⟩
      simp [colorOf, MergedRow.value, hall m hm]
    · intro l hl
      rcases List.mem_map.mp hl with ⟨m, hm, rfl⟩
      simp [labelOf, MergedRow.value, hall m hm]

theorem C1_every_polygon_in_output_witness :
    (∀ g ∈ usaW, ∃ m ∈ outW1.merged, m.geo = g) ∧
    outW1.colors = outW1.merged.map (colorOf outW1.vmin outW1.vmax "Tax") ∧
    outW1.labels = outW1.merged.map (labelOf "Tax") ∧
    (∀ m ∈ outW1.merged, m.attached = none →
      colorOf outW1.vmin outW1.vmax "Tax" m = Color.grey ∧
      labelOf "Tax" m = ⟨m.geo.stusps, none⟩) ∧
    ((∀ r ∈ dfW1.rows, ∀ g ∈ usaW, r.get "State" ≠ some (Cell.str g.name)) →
      (∀ c ∈ outW1.colors, c = Color.grey) ∧
      (∀ l ∈ outW1.labels, l.value = none)) :=
  C1_every_polygon_in_output dfW1 "Tax" usaW
    [.readInput, .geoAccess, .draw, .save] outW1 run_dfW1

/-- Claim C3, counterexample: with every metric value equal (to 2), the
present-value record is colored `cmap 0 = stop0`, the low end of the
gradient, while the gradient's midpoint is `cmap (1/2) = stop2 ≠ stop0` —
so the identical degenerate-range color is not the midpoint. -/
theorem C3_counterexample :
    plotColors dfEq "Tax" [calif] = some [Color.rgb stop0] ∧
    cmap 0 = stop0 ∧ cmap (1/2) = stop2 ∧ stop0 ≠ stop2 := by
  refine ⟨?_, ?_, ?_, ?_⟩
  · simp [plotColors, plotResult, run_dfEq, outEq]
  · norm_num [cmap, lerpRGB, lerp, stop0, stop1, min_def, max_def]
  · norm_num [cmap, lerpRGB, lerp, stop1, stop2, min_def, max_def]
  · norm_num [stop0, stop2]

/-- Claim C3, amended: when all present metric values of the input table
are equal, the guard of the normalization maps every value to 0 with no
division (`normDiv` never reports a division by zero), and every
present-value record receives the one color `cmap 0` — the low end of the
gradient, not its midpoint. -/
theorem C3_degenerate_range (df : Table) (vc : String) (usa : List GeoRow)
    (v : ℚ) (evs : List Ev) (out : Output)
    (h : plot_us_map df vc usa = (evs, .ok out))
    (hall : ∀ q ∈ colVals df.rows vc, q = v) :
    (∀ x : ℚ, normDiv v v x = some 0) ∧
    (∀ m ∈ out.merged, (m.value vc).notnull = true →
      colorOf out.vmin out.vmax vc m = Color.rgb (cmap 0)) ∧
    (∀ c ∈ out.colors, c = Color.grey ∨ c = Color.rgb (cmap 0)) := by
  obtain ⟨h1, h2, h3⟩ := plot_ok_conditions h
  obtain ⟨hevs, hout⟩ := plot_ok_eq h
  subst hout
  have key : ∀ m ∈ pmerge usa df.rows, (m.value vc).notnull = true →
      colorOf ((listMin (colVals df.rows vc)).getD 0)
        ((listMax (colVals df.rows vc)).getD 0) vc m = Color.rgb (cmap 0) := by
    intro m hm hnn
    have hiso := h3 m hm
    cases hv : m.value vc with
    | nan => rw [hv] at hnn; simp [Cell.notnull] at hnn
    | str s => rw [hv] at hiso; simp [Cell.isNumOrNan] at hiso
    | num q =>
      obtain ⟨r, hatt, hget⟩ :
          ∃ r, m.attached = some r ∧ r.get vc = some (Cell.num q) := by
        cases hatt : m.attached with
        | none => simp [MergedRow.value, hatt] at hv
        | some r =>
          refine ⟨r, rfl, ?_⟩
          simp [MergedRow.value, hatt, Row.cell] at hv
          cases hget : r.get vc with
          | none => rw [hget] at hv; simp at hv
          | some cell => rw [hget] at hv; simp at hv; rw [hv]
      have hrmem : r ∈ df.rows := ((mem_pmerge hm).2 r hatt).1
      have hq : q ∈ colVals df.rows vc := mem_colVals hrmem hget
      have hne : colVals df.rows vc ≠ [] := List.ne_nil_of_mem hq
      have hmin := listMin_all_eq hne hall
      have hmax := listMax_all_eq hne hall
      simp [colorOf, hv, hmin, hmax, normValue]
  refine ⟨fun x => by simp [normDiv], key, ?_⟩
  intro c hc
  rcases List.mem_map.mp hc with ⟨m, hm, rfl⟩
  cases hv : m.value vc with
  | nan => left; simp [colorOf, hv]
  | str s => left; simp [colorOf, hv]
  | num q => right; exact key m hm (by simp [Cell.notnull, hv])

theorem C3_degenerate_range_witness :
    (∀ x : ℚ, normDiv 2 2 x = some 0) ∧
    (∀ m ∈ outEq.merged, (m.value "Tax").notnull = true →
      colorOf outEq.vmin outEq.vmax "Tax" m = Color.rgb (cmap 0)) ∧
    (∀ c ∈ outEq.colors, c = Color.grey ∨ c = Color.rgb (cmap 0)) :=
  C3_degenerate_range dfEq "Tax" [calif] 2
    [.readInput, .geoAccess, .draw, .save] outEq run_dfEq
    (by simp [colVals, dfEq, rowEq, Row.get])

/-- Claim C5, counterexample: with input rows (California, 1) and
(Atlantis, 5) and a geometry source containing only California, the run
uses `vmax = 5` — the maximum over the whole input table — while the
maximum over values attached to a geometry polygon is 1. -/
theorem C5_counterexample :
    plotVmax dfAtl "Tax" [calif] = some 5 ∧
    listMax (joinedVals (pmerge [calif] dfAtl.rows) "Tax") = some 1 ∧
    (5 : ℚ) ≠ 1 := by
  refine ⟨?_, ?_, by norm_num⟩
  · simp [plotVmax, plotResult, run_dfAtl, outAtl]
  · have hm : pmerge [calif] dfAtl.rows = [⟨calif, some rowCA⟩] := by
      simp [dfAtl, pmerge, mergeBlock, matchesState, Row.get, rowCA, rowAT, calif]
    rw [hm]
    simp [joinedVals, value_attached_CA, listMax]

/-- Claim C5, amended: the normalization bounds `vmin`/`vmax` of a
successful run are the minimum and maximum of the metric column across the
present values of the whole input table — including rows whose state
matches no geometry polygon — not only over values attached to a
polygon. -/
theorem C5_bounds_from_input_table (df : Table) (vc : String)
    (usa : List GeoRow) (evs : List Ev) (out : Output)
    (h : plot_us_map df vc usa = (evs, .ok out))
    (hne : colVals df.rows vc ≠ []) :
    some out.vmin = listMin (colVals df.rows vc) ∧
    some out.vmax = listMax (colVals df.rows vc) := by
  obtain ⟨hevs, hout⟩ := plot_ok_eq h
  subst hout
  cases hl : colVals df.rows vc with
  | nil => exact absurd hl hne
  | cons x xs => simp [listMin, listMax, hl]

theorem C5_bounds_from_input_table_witness :
    some outAtl.vmin = listMin (colVals dfAtl.rows "Tax") ∧
    some outAtl.vmax = listMax (colVals dfAtl.rows "Tax") :=
  C5_bounds_from_input_table dfAtl "Tax" [calif]
    [.readInput, .geoAccess, .draw, .save] outAtl run_dfAtl
    (by simp [colVals, dfAtl, rowCA, rowAT, Row.get])

/-- Claim C6: an input row whose state name matches no polygon of the
geometry source contributes no joined record — appending it leaves the
merge unchanged, every joined record's polygon comes from the geometry
source (no phantom region), and the run fails or succeeds exactly as
without the row. -/
theorem C6_unmatched_row_contributes_nothing (usa : List GeoRow) (df : Table)
    (vc : String) (r : Row)
    (h : ∀ g ∈ usa, r.get "State" ≠ some (Cell.str g.name)) :
    pmerge usa (df.rows ++ [r]) = pmerge usa df.rows ∧
    (∀ m ∈ pmerge usa df.rows, m.geo ∈ usa) ∧
    isOkRun (plot_us_map ⟨df.cols, df.rows ++ [r]⟩ vc usa) =
      isOkRun (plot_us_map df vc usa) := by
  have hm := pmerge_append_unmatched usa df.rows h
  refine ⟨hm, fun m hmem => (mem_pmerge hmem).1, ?_⟩
  by_cases h1 : "State" ∈ df.cols
  · by_cases h2 : vc ∈ df.cols
    · by_cases h3 : ∃ m ∈ pmerge usa df.rows, (m.value vc).isNumOrNan = false
      · simp [plot_us_map, isOkRun, h1, h2, h3, hm]
      · simp [plot_us_map, isOkRun, h1, h2, h3, hm]
    · simp [plot_us_map, isOkRun, h1, h2]
  · simp [plot_us_map, isOkRun, h1]

theorem C6_unmatched_row_contributes_nothing_witness :
    pmerge [calif] (dfW1.rows ++ [rowAT]) = pmerge [calif] dfW1.rows ∧
    (∀ m ∈ pmerge [calif] dfW1.rows, m.geo ∈ [calif]) ∧
    isOkRun (plot_us_map ⟨dfW1.cols, dfW1.rows ++ [rowAT]⟩ "Tax" [calif]) =
      isOkRun (plot_us_map dfW1 "Tax" [calif]) :=
  C6_unmatched_row_contributes_nothing [calif] dfW1 "Tax" rowAT (by decide)

/-- Claim C10: with `k ≥ 1` input rows naming the same state, the merge
yields one joined record per (polygon copy, matching row) pair — `k` per
copy of the polygon — each drawn and labeled separately (one color and one
label per record); with `k ≥ 2` the polygon appears at least twice, so
"every polygon appears" is at-least-once, not exactly-once. -/
theorem C10_duplicate_rows (df : Table) (vc : String) (usa : List GeoRow)
    (g : GeoRow) (evs : List Ev) (out : Output)
    (h : plot_us_map df vc usa = (evs, .ok out))
    (hg : g ∈ usa)
    (hk : 1 ≤ (df.rows.filter (matchesState g)).length) :
    out.merged.countP (fun m => m.geo = g) =
      usa.countP (fun g' => g' = g) * (df.rows.filter (matchesState g)).length ∧
    (2 ≤ (df.rows.filter (matchesState g)).length →
      2 ≤ out.merged.countP (fun m => m.geo = g)) ∧
    out.colors.length = out.merged.length ∧
    out.labels.length = out.merged.length := by
  obtain ⟨hevs, hout⟩ := plot_ok_eq h
  subst hout
  have hcount := countP_pmerge usa df.rows g
  rw [Nat.max_eq_right hk] at hcount
  refine ⟨hcount, ?_, by simp, by simp⟩
  intro h2
  rw [hcount]
  have hpos : 0 < usa.countP (fun g' => g' = g) :=
    List.countP_pos_iff.mpr ⟨g, hg, by simp⟩
  calc 2 = 1 * 2 := by norm_num
    _ ≤ usa.countP (fun g' => g' = g) * (df.rows.filter (matchesState g)).length :=
      Nat.mul_le_mul hpos h2

theorem C10_duplicate_rows_witness :
    outDup.merged.countP (fun m => m.geo = calif) =
      [calif].countP (fun g' => g' = calif) *
        (dfDup.rows.filter (matchesState calif)).length ∧
    (2 ≤ (dfDup.rows.filter (matchesState calif)).length →
      2 ≤ outDup.merged.countP (fun m => m.geo = calif)) ∧
    outDup.colors.length = outDup.merged.length ∧
    outDup.labels.length = outDup.merged.length :=
  C10_duplicate_rows dfDup "Tax" [calif] calif
    [.readInput, .geoAccess, .draw, .save] outDup run_dfDup
    (by decide) (by decide)

end Geomap
